import Mathlib

/-!
Shallow embedding of the DarkHook relayer agent (src/relayer/relayer.js).

The agent polls a proof source for signed execution proofs, validates each
candidate (validateProof), decides whether to submit now (determineOptimalTiming
with assessMEVRisk), executes (executeProof, mutating the processed-proof set
and the statistics), and drains an execution queue of deferred proofs each
cycle (processQueue).  The monitor loop (monitorAndExecute) is embedded as the
per-cycle state-transition function `cycle`; the asynchronous network reads
(fee data, block number) are passed in as an explicit `NetworkState`, the
clock (`Date.now()` in seconds) as an explicit `now`, and the outcome of the
simulated submission/confirmation step as an explicit `ExecOutcome` per proof.
JavaScript BigInt values are embedded as `Int` (arbitrary-precision, signed),
JS `Set<string>` as a duplicate-free `List String` with the JS `add` / `delete`
semantics, and each decision made by the loop is recorded in a `Trace` so that
temporal claims about validator/engine invocations can be stated.
-/

set_option maxRecDepth 8000

namespace Relayer

/-- Lowercasing as used by JavaScript `toLowerCase` on the ASCII hex addresses
compared here: lower every character of the string. -/
def lowerString (s : String) : String := String.mk (s.data.map Char.toLower)

/-- CONFIG.TRUSTED_TEE_SIGNER from relayer.js. -/
def TRUSTED_TEE_SIGNER : String := "0x7E5F4552091A69125d5DfCb7b8C2659029395Bdf"

/-- CONFIG.MAX_GAS_PRICE_GWEI (the fee-price ceiling, in gwei). -/
def MAX_GAS_PRICE_GWEI : ℚ := 50

/-- CONFIG.GAS_BUFFER_PERCENT. -/
def GAS_BUFFER_PERCENT : Nat := 20

/-- CONFIG.MEV_PROTECTION_ENABLED. -/
def MEV_PROTECTION_ENABLED : Bool := true

/-- An execution proof as consumed by the relayer: the flat record produced by
the TEE proof source (see mockFetchProofs in relayer.js).  Numeric fields are
JS BigInt / number values, embedded as `Int`; the signature fields keep their
hex-string encoding because the validator checks only string length. -/
structure Proof where
  batchId : String
  timestamp : Int
  user : String
  tokenIn : String
  tokenOut : String
  amountIn : Int
  amountOut : Int
  clearingPrice : Int
  intentHash : String
  userSignature : String
  teeSignature : String
  teeSigner : String
  merkleRoot : String
  mevSaved : Int
  deriving DecidableEq

/-- Cumulative statistics of the agent (this.stats in RelayerAgent).
totalGasSpent accumulates gasEstimate * gasPrice in wei (non-negative, so
`Nat`); totalMevSaved accumulates BigInt(proof.mevSaved), which is a signed
BigInt read from the proof record, so it stays `Int`. -/
structure Stats where
  proofsProcessed : Nat
  successfulExecutions : Nat
  failedExecutions : Nat
  totalGasSpent : Nat
  totalMevSaved : Int
  deriving DecidableEq

/-- The live network data read by the agent during a cycle: the current fee
price in wei (provider.getFeeData().gasPrice) and the current block height
(provider.getBlockNumber()). -/
structure NetworkState where
  gasPriceWei : Nat
  blockNumber : Nat
  deriving DecidableEq

/-- Mutable agent state: the processed-proof identifier set (a JS Set of
intentHash strings), the execution queue of deferred proofs, and the stats. -/
structure AgentState where
  processedProofs : List String
  executionQueue : List Proof
  stats : Stats
  deriving DecidableEq

/-- JS `Set.add`: insert the element if it is not already present (insertion
order kept, no duplicates). -/
def SetAdd (s : List String) (x : String) : List String :=
  if x ∈ s then s else s ++ [x]

/-- JS `Set.delete`: remove the element. -/
def SetDelete (s : List String) (x : String) : List String :=
  s.filter (fun y => decide (y ≠ x))

/-- Initial stats of a fresh RelayerAgent (all counters zero). -/
def initialStats : Stats :=
  { proofsProcessed := 0, successfulExecutions := 0, failedExecutions := 0,
    totalGasSpent := 0, totalMevSaved := 0 }

/-- Initial state of a fresh RelayerAgent: empty processed set, empty queue. -/
def initialState : AgentState :=
  { processedProofs := [], executionQueue := [], stats := initialStats }

/-- The reason logged by validateProof when a check fails, one per check in
source order. -/
inductive RejectReason where
  | untrustedSigner
  | expired
  | malformedSignature
  | invalidAmounts
  deriving DecidableEq

/-- validateProof from relayer.js, returning the reason of the first failing
check (the source logs exactly these reasons and returns false from the same
four branches, in this order).  `now` is Math.floor(Date.now() / 1000) at the
moment of the call, made explicit. -/
def validateProofR (proof : Proof) (trustedSigner : String) (now : Int) :
    Option RejectReason :=
  if lowerString proof.teeSigner ≠ lowerString trustedSigner then
    some RejectReason.untrustedSigner
  else if now - proof.timestamp > 3600 then
    some RejectReason.expired
  else if proof.teeSignature.length < 130 then
    some RejectReason.malformedSignature
  else if proof.amountIn ≤ 0 ∨ proof.amountOut ≤ 0 then
    some RejectReason.invalidAmounts
  else
    none

/-- validateProof from relayer.js as the boolean the source returns: the same
four checks, in the same order, first failure short-circuiting to false.
The source's `!proof.teeSignature || proof.teeSignature.length < 130` check is
subsumed by the length check (an absent/empty signature has length 0 < 130). -/
def validateProof (proof : Proof) (trustedSigner : String) (now : Int) : Bool :=
  if lowerString proof.teeSigner ≠ lowerString trustedSigner then false
  else if now - proof.timestamp > 3600 then false
  else if proof.teeSignature.length < 130 then false
  else if proof.amountIn ≤ 0 ∨ proof.amountOut ≤ 0 then false
  else true

/-- MEV risk tiers returned by assessMEVRisk ('LOW' / 'MEDIUM' / 'HIGH'). -/
inductive MEVRisk where
  | low
  | medium
  | high
  deriving DecidableEq

/-- assessMEVRisk from relayer.js: amountIn above 10000 * 10^6 (10k USDC) is
MEDIUM risk, anything else LOW; no branch produces HIGH. -/
def assessMEVRisk (proof : Proof) : MEVRisk :=
  if proof.amountIn > 10000 * 10 ^ 6 then MEVRisk.medium else MEVRisk.low

/-- The fee-price ceiling expressed in wei.  The source compares
Number(gasPrice) / 1e9 > CONFIG.MAX_GAS_PRICE_GWEI; over exact arithmetic that
is gasPriceWei > 50 * 10^9, the form used by `determineOptimalTiming` below
(`gasPriceGwei` and the claim theorems restate the gate in gwei). -/
def MAX_GAS_PRICE_WEI : Nat := 50 * 1000000000

/-- Current fee price in gwei, as the source computes it
(Number(feeData.gasPrice) / 1e9), over exact rationals. -/
def gasPriceGwei (ns : NetworkState) : ℚ := (ns.gasPriceWei : ℚ) / 1000000000

/-- determineOptimalTiming from relayer.js: defer (false) when the fee price
exceeds the ceiling; then, with MEV protection enabled, defer when the MEV
risk is HIGH; the block-number read is observational only and the function
then returns true. -/
def determineOptimalTiming (proof : Proof) (ns : NetworkState) : Bool :=
  if ns.gasPriceWei > MAX_GAS_PRICE_WEI then false
  else if MEV_PROTECTION_ENABLED && decide (assessMEVRisk proof = MEVRisk.high) then
    false
  else true

/-- Outcome of the (simulated) submission/confirmation step inside
executeProof: either the transaction hash on success, or the error message of
the exception thrown by the submission or confirmation. -/
inductive ExecOutcome where
  | success (txHash : String)
  | failure (err : String)

/-- The value executeProof returns: { success: true, txHash } or
{ success: false, error }. -/
inductive ExecResult where
  | ok (txHash : String)
  | failed (error : String)
  deriving DecidableEq

/-- The hardcoded gas estimate in executeProof. -/
def GAS_ESTIMATE : Nat := 250000

/-- gasWithBuffer in executeProof: the estimate plus the configured buffer. -/
def gasWithBuffer : Nat := GAS_ESTIMATE * (100 + GAS_BUFFER_PERCENT) / 100

/-- executeProof from relayer.js.  Inside the try block the source first adds
intentHash to processedProofs and increments proofsProcessed, then submits and
awaits confirmation; on success it increments successfulExecutions, adds
gasEstimate * gasPrice to totalGasSpent and proof.mevSaved to totalMevSaved,
and returns success; when the submission/confirmation throws, the catch block
increments failedExecutions, deletes intentHash from processedProofs, and
returns the failure with the error message. -/
def executeProof (proof : Proof) (ns : NetworkState) (outcome : ExecOutcome)
    (st : AgentState) : ExecResult × AgentState :=
  let st1 : AgentState :=
    { st with
      processedProofs := SetAdd st.processedProofs proof.intentHash,
      stats := { st.stats with proofsProcessed := st.stats.proofsProcessed + 1 } }
  match outcome with
  | ExecOutcome.success txHash =>
      (ExecResult.ok txHash,
        { st1 with
          stats :=
            { st1.stats with
              successfulExecutions := st1.stats.successfulExecutions + 1,
              totalGasSpent := st1.stats.totalGasSpent + GAS_ESTIMATE * ns.gasPriceWei,
              totalMevSaved := st1.stats.totalMevSaved + proof.mevSaved } })
  | ExecOutcome.failure err =>
      (ExecResult.failed err,
        { st1 with
          processedProofs := SetDelete st1.processedProofs proof.intentHash,
          stats := { st1.stats with failedExecutions := st1.stats.failedExecutions + 1 } })

/-- fetchPendingProofs from relayer.js: the candidates returned by the proof
source, with every identifier already in processedProofs filtered out. -/
def fetchPendingProofs (candidates : List Proof) (processed : List String) :
    List Proof :=
  candidates.filter (fun p => !(decide (p.intentHash ∈ processed)))

/-- Record of which proof identifiers the loop handed to validateProof, to
determineOptimalTiming, and to executeProof, in order, across cycles. -/
structure Trace where
  validated : List String
  timingChecked : List String
  executed : List String
  deriving DecidableEq

/-- Empty trace. -/
def emptyTrace : Trace := { validated := [], timingChecked := [], executed := [] }

/-- One candidate inside the monitorAndExecute for-loop: validate; if accepted,
run the timing advisor; execute on a pass, push onto executionQueue on a fail;
a rejected proof is simply dropped. -/
def processCandidate (trusted : String) (now : Int) (ns : NetworkState)
    (outcomes : Proof → ExecOutcome) (st : AgentState) (tr : Trace) (p : Proof) :
    AgentState × Trace :=
  let tr1 : Trace := { tr with validated := tr.validated ++ [p.intentHash] }
  if validateProof p trusted now then
    let tr2 : Trace := { tr1 with timingChecked := tr1.timingChecked ++ [p.intentHash] }
    if determineOptimalTiming p ns then
      let tr3 : Trace := { tr2 with executed := tr2.executed ++ [p.intentHash] }
      ((executeProof p ns (outcomes p) st).2, tr3)
    else
      ({ st with executionQueue := st.executionQueue ++ [p] }, tr2)
  else
    (st, tr1)

/-- The monitorAndExecute for-loop over the fetched candidates. -/
def runCandidates (trusted : String) (now : Int) (ns : NetworkState)
    (outcomes : Proof → ExecOutcome) (ps : List Proof) (st : AgentState)
    (tr : Trace) : AgentState × Trace :=
  match ps with
  | [] => (st, tr)
  | p :: rest =>
      let r := processCandidate trusted now ns outcomes st tr p
      runCandidates trusted now ns outcomes rest r.1 r.2

/-- The for-loop inside processQueue, iterating over the snapshot of the queue
taken after the queue field was reset to []: re-check the timing advisor for
each proof; execute on a pass, push back onto executionQueue on a fail. -/
def processQueueAux (ns : NetworkState) (outcomes : Proof → ExecOutcome)
    (ps : List Proof) (st : AgentState) (tr : Trace) : AgentState × Trace :=
  match ps with
  | [] => (st, tr)
  | p :: rest =>
      let tr1 : Trace := { tr with timingChecked := tr.timingChecked ++ [p.intentHash] }
      if determineOptimalTiming p ns then
        let tr2 : Trace := { tr1 with executed := tr1.executed ++ [p.intentHash] }
        processQueueAux ns outcomes rest (executeProof p ns (outcomes p) st).2 tr2
      else
        processQueueAux ns outcomes rest
          { st with executionQueue := st.executionQueue ++ [p] } tr1

/-- processQueue from relayer.js: return at once on an empty queue; otherwise
copy the queue, empty the field, and drain the copy. -/
def processQueue (ns : NetworkState) (outcomes : Proof → ExecOutcome)
    (st : AgentState) (tr : Trace) : AgentState × Trace :=
  if st.executionQueue = [] then (st, tr)
  else
    processQueueAux ns outcomes st.executionQueue
      { st with executionQueue := [] } tr

/-- The external inputs consumed by one iteration of the monitor loop: the
candidate set returned by the proof source, the clock, the network reads, and
the submission outcome the execution target would produce for each proof. -/
structure CycleInput where
  candidates : List Proof
  now : Int
  ns : NetworkState
  outcomes : Proof → ExecOutcome

/-- One iteration of the monitorAndExecute while-loop: fetch (filtering out
identifiers already in processedProofs), run each surviving candidate through
validation / timing / execution-or-queueing, then drain the queue. -/
def cycle (trusted : String) (ci : CycleInput) (st : AgentState) (tr : Trace) :
    AgentState × Trace :=
  let fresh := fetchPendingProofs ci.candidates st.processedProofs
  let r := runCandidates trusted ci.now ci.ns ci.outcomes fresh st tr
  processQueue ci.ns ci.outcomes r.1 r.2

/-- A run of the monitor loop over a sequence of cycle inputs. -/
def runCycles (trusted : String) (inputs : List CycleInput) (st : AgentState)
    (tr : Trace) : AgentState × Trace :=
  match inputs with
  | [] => (st, tr)
  | ci :: rest =>
      let r := cycle trusted ci st tr
      runCycles trusted rest r.1 r.2

/-- The mock proof emitted by mockFetchProofs in relayer.js (timestamp made
concrete; the source uses the current clock). -/
def mockProof : Proof :=
  { batchId := "0xaaaaaaaaaaaaaaaa"
    timestamp := 1700000000
    user := "0x742d35Cc6634C0532925a3b844Bc9e7595f8fE21"
    tokenIn := "0x036CbD53842c5426634e7929541eC2318f3dCF7e"
    tokenOut := "0x4200000000000000000000000000000000000006"
    amountIn := 1000000000
    amountOut := 385000000000000000
    clearingPrice := 2598420000
    intentHash := "0xbbbbbbbbbbbbbbbbbbbbbbbbbbbbbbbbbbbbbbbbbbbbbbbbbbbbbbbbbbbbbbbb"
    userSignature := "0xcccccccccccccccccccccccccccccccccccccccccccccccccccccccccccccccccccccccccccccccccccccccccccccccccccccccccccccccccccccccccccccccccc"
    teeSignature := "0xdddddddddddddddddddddddddddddddddddddddddddddddddddddddddddddddddddddddddddddddddddddddddddddddddddddddddddddddddddddddddddddddddd"
    teeSigner := TRUSTED_TEE_SIGNER
    merkleRoot := "0xeeeeeeeeeeeeeeeeeeeeeeeeeeeeeeeeeeeeeeeeeeeeeeeeeeeeeeeeeeeeeeee"
    mevSaved := 23470000 }

/-- A clock value 10 seconds after mockProof's issuance (scenario 1 of the
spec's end-to-end scenarios). -/
def mockNow : Int := 1700000010

/-- Network state with a 5 gwei fee price. -/
def ns5 : NetworkState := { gasPriceWei := 5000000000, blockNumber := 12345 }

/-- Network state with a 75 gwei fee price (above the 50 gwei ceiling). -/
def ns75 : NetworkState := { gasPriceWei := 75000000000, blockNumber := 12345 }

/-- mockProof with an attesting identity different from the trusted one. -/
def badSignerProof : Proof :=
  { mockProof with teeSigner := "0x0000000000000000000000000000000000000001" }

/-- mockProof with a negative advisory MEV-saved value. -/
def negMevProof : Proof :=
  { mockProof with
    intentHash := "0xffffffffffffffffffffffffffffffffffffffffffffffffffffffffffffffff"
    mevSaved := -1 }

/-- mockProof issued far in the future relative to mockNow. -/
def futureProof : Proof :=
  { mockProof with
    intentHash := "0x9999999999999999999999999999999999999999999999999999999999999999"
    timestamp := 1800000000 }

/-- Cycle input presenting only the untrusted-signer proof, with every
submission succeeding. -/
def ciBad : CycleInput :=
  { candidates := [badSignerProof], now := mockNow, ns := ns5,
    outcomes := fun _ => ExecOutcome.success "0x01" }

/-- Cycle input presenting only the valid mock proof during a high-fee window. -/
def ciDefer : CycleInput :=
  { candidates := [mockProof], now := mockNow, ns := ns75,
    outcomes := fun _ => ExecOutcome.success "0x02" }

/-- Cycle input presenting only the valid negative-mevSaved proof in a low-fee
window, with the submission succeeding. -/
def ciNeg : CycleInput :=
  { candidates := [negMevProof], now := mockNow, ns := ns5,
    outcomes := fun _ => ExecOutcome.success "0x03" }

/-- Cycle input presenting only the valid mock proof in a low-fee window, with
the submission succeeding. -/
def ciGood : CycleInput :=
  { candidates := [mockProof], now := mockNow, ns := ns5,
    outcomes := fun _ => ExecOutcome.success "0x04" }

/-- Agent state in which mockProof's identifier is already settled. -/
def settledState : AgentState :=
  { initialState with processedProofs := [mockProof.intentHash] }

/-- Passing condition of each validation rule, following the wording of the
spec's rule list (identity, freshness, signature format, amounts); used only
to compare the source validator against the spec's fixed rule order. -/
def rulePasses (p : Proof) (trusted : String) (now : Int) : RejectReason → Bool
  | RejectReason.untrustedSigner => decide (lowerString p.teeSigner = lowerString trusted)
  | RejectReason.expired => decide (now - p.timestamp ≤ 3600)
  | RejectReason.malformedSignature => decide (130 ≤ p.teeSignature.length)
  | RejectReason.invalidAmounts => decide (0 < p.amountIn ∧ 0 < p.amountOut)

/-- The fixed rule order stated by the spec: identity, then freshness, then
signature format, then amounts. -/
def ruleOrder : List RejectReason :=
  [RejectReason.untrustedSigner, RejectReason.expired,
   RejectReason.malformedSignature, RejectReason.invalidAmounts]

/-- Specification-side description of the validator outcome: the first rule in
the fixed order whose passing condition fails (none when all pass). -/
def firstFailingRule (p : Proof) (trusted : String) (now : Int) :
    Option RejectReason :=
  ruleOrder.find? (fun r => !(rulePasses p trusted now r))

/-- Componentwise order on the unsigned Stats fields (candidate counter,
success counter, failure counter, fee total). -/
def StatsLe (s1 s2 : Stats) : Prop :=
  s1.proofsProcessed ≤ s2.proofsProcessed ∧
  s1.successfulExecutions ≤ s2.successfulExecutions ∧
  s1.failedExecutions ≤ s2.failedExecutions ∧
  s1.totalGasSpent ≤ s2.totalGasSpent

/-! Helper lemmas about the embedded operations. -/

theorem statsLe_refl (s : Stats) : StatsLe s s := by
  exact ⟨le_refl _, le_refl _, le_refl _, le_refl _⟩

theorem statsLe_trans {s1 s2 s3 : Stats} (h1 : StatsLe s1 s2) (h2 : StatsLe s2 s3) :
    StatsLe s1 s3 := by
  exact ⟨le_trans h1.1 h2.1, le_trans h1.2.1 h2.2.1,
    le_trans h1.2.2.1 h2.2.2.1, le_trans h1.2.2.2 h2.2.2.2⟩

theorem executeProof_queue (p : Proof) (ns : NetworkState) (o : ExecOutcome)
    (st : AgentState) : (executeProof p ns o st).2.executionQueue = st.executionQueue := by
  cases o <;> rfl

theorem executeProof_statsLe (p : Proof) (ns : NetworkState) (o : ExecOutcome)
    (st : AgentState) : StatsLe st.stats (executeProof p ns o st).2.stats := by
  cases o <;> simp [executeProof, StatsLe] <;> omega

theorem executeProof_mev_mono (p : Proof) (ns : NetworkState) (o : ExecOutcome)
    (st : AgentState) (hp : 0 ≤ p.mevSaved) :
    st.stats.totalMevSaved ≤ (executeProof p ns o st).2.stats.totalMevSaved := by
  cases o <;> simp [executeProof] <;> omega

theorem processCandidate_statsLe (trusted : String) (now : Int) (ns : NetworkState)
    (outcomes : Proof → ExecOutcome) (st : AgentState) (tr : Trace) (p : Proof) :
    StatsLe st.stats (processCandidate trusted now ns outcomes st tr p).1.stats := by
  unfold processCandidate
  by_cases hv : validateProof p trusted now
  · by_cases ht : determineOptimalTiming p ns
    · simp only [hv, ht, if_true]
      exact executeProof_statsLe p ns (outcomes p) st
    · simp [hv, ht, statsLe_refl]
  · simp [hv, statsLe_refl]

theorem processCandidate_mev_mono (trusted : String) (now : Int) (ns : NetworkState)
    (outcomes : Proof → ExecOutcome) (st : AgentState) (tr : Trace) (p : Proof)
    (hp : 0 ≤ p.mevSaved) :
    st.stats.totalMevSaved ≤ (processCandidate trusted now ns outcomes st tr p).1.stats.totalMevSaved := by
  unfold processCandidate
  by_cases hv : validateProof p trusted now
  · by_cases ht : determineOptimalTiming p ns
    · simp only [hv, ht, if_true]
      exact executeProof_mev_mono p ns (outcomes p) st hp
    · simp [hv, ht]
  · simp [hv]

theorem processCandidate_queue_sub (trusted : String) (now : Int) (ns : NetworkState)
    (outcomes : Proof → ExecOutcome) (st : AgentState) (tr : Trace) (p : Proof)
    (q : Proof) (hq : q ∈ (processCandidate trusted now ns outcomes st tr p).1.executionQueue) :
    q ∈ st.executionQueue ∨ q = p := by
  unfold processCandidate at hq
  by_cases hv : validateProof p trusted now
  · by_cases ht : determineOptimalTiming p ns
    · simp only [hv, ht, if_true] at hq
      rw [executeProof_queue] at hq
      exact Or.inl hq
    · simp [hv, ht] at hq
      rcases hq with h | h
      · exact Or.inl h
      · exact Or.inr h
  · simp [hv] at hq
    exact Or.inl hq

theorem runCandidates_statsLe (trusted : String) (now : Int) (ns : NetworkState)
    (outcomes : Proof → ExecOutcome) (ps : List Proof) (st : AgentState) (tr : Trace) :
    StatsLe st.stats (runCandidates trusted now ns outcomes ps st tr).1.stats := by
  induction ps generalizing st tr with
  | nil => exact statsLe_refl _
  | cons p rest ih =>
      simp only [runCandidates]
      exact statsLe_trans (processCandidate_statsLe trusted now ns outcomes st tr p)
        (ih _ _)

theorem runCandidates_mev_mono (trusted : String) (now : Int) (ns : NetworkState)
    (outcomes : Proof → ExecOutcome) (ps : List Proof) (st : AgentState) (tr : Trace)
    (hps : ∀ p ∈ ps, 0 ≤ p.mevSaved) :
    st.stats.totalMevSaved ≤ (runCandidates trusted now ns outcomes ps st tr).1.stats.totalMevSaved := by
  induction ps generalizing st tr with
  | nil => exact le_refl _
  | cons p rest ih =>
      simp only [runCandidates]
      refine le_trans (processCandidate_mev_mono trusted now ns outcomes st tr p ?_) (ih _ _ ?_)
      · exact hps p (List.mem_cons_self p rest)
      · exact fun q hq => hps q (List.mem_cons_of_mem p hq)

theorem runCandidates_queue_sub (trusted : String) (now : Int) (ns : NetworkState)
    (outcomes : Proof → ExecOutcome) (ps : List Proof) (st : AgentState) (tr : Trace)
    (q : Proof) (hq : q ∈ (runCandidates trusted now ns outcomes ps st tr).1.executionQueue) :
    q ∈ st.executionQueue ∨ q ∈ ps := by
  induction ps generalizing st tr with
  | nil => exact Or.inl hq
  | cons p rest ih =>
      simp only [runCandidates] at hq
      rcases ih _ _ hq with h | h
      · rcases processCandidate_queue_sub trusted now ns outcomes st tr p q h with h' | h'
        · exact Or.inl h'
        · exact Or.inr (h' ▸ List.mem_cons_self p rest)
      · exact Or.inr (List.mem_cons_of_mem p h)

theorem processQueueAux_queueEq (ns : NetworkState) (outcomes : Proof → ExecOutcome)
    (ps : List Proof) (st : AgentState) (tr : Trace) :
    (processQueueAux ns outcomes ps st tr).1.executionQueue
      = st.executionQueue ++ ps.filter (fun p => !determineOptimalTiming p ns) := by
  induction ps generalizing st tr with
  | nil => simp [processQueueAux]
  | cons p rest ih =>
      simp only [processQueueAux]
      by_cases ht : determineOptimalTiming p ns
      · rw [if_pos ht, ih, executeProof_queue]
        simp [ht]
      · rw [if_neg ht, ih]
        simp [ht, List.append_assoc]

theorem processQueueAux_timingEq (ns : NetworkState) (outcomes : Proof → ExecOutcome)
    (ps : List Proof) (st : AgentState) (tr : Trace) :
    (processQueueAux ns outcomes ps st tr).2.timingChecked
      = tr.timingChecked ++ ps.map (fun p => p.intentHash) := by
  induction ps generalizing st tr with
  | nil => simp [processQueueAux]
  | cons p rest ih =>
      simp only [processQueueAux]
      by_cases ht : determineOptimalTiming p ns
      · rw [if_pos ht, ih]
        simp [List.append_assoc]
      · rw [if_neg ht, ih]
        simp [List.append_assoc]

theorem processQueueAux_executedEq (ns : NetworkState) (outcomes : Proof → ExecOutcome)
    (ps : List Proof) (st : AgentState) (tr : Trace) :
    (processQueueAux ns outcomes ps st tr).2.executed
      = tr.executed ++ (ps.filter (fun p => determineOptimalTiming p ns)).map (fun p => p.intentHash) := by
  induction ps generalizing st tr with
  | nil => simp [processQueueAux]
  | cons p rest ih =>
      simp only [processQueueAux]
      by_cases ht : determineOptimalTiming p ns
      · rw [if_pos ht, ih]
        simp [ht, List.append_assoc]
      · rw [if_neg ht, ih]
        simp [ht]

theorem processQueueAux_statsLe (ns : NetworkState) (outcomes : Proof → ExecOutcome)
    (ps : List Proof) (st : AgentState) (tr : Trace) :
    StatsLe st.stats (processQueueAux ns outcomes ps st tr).1.stats := by
  induction ps generalizing st tr with
  | nil => exact statsLe_refl _
  | cons p rest ih =>
      simp only [processQueueAux]
      by_cases ht : determineOptimalTiming p ns
      · rw [if_pos ht]
        exact statsLe_trans (executeProof_statsLe p ns (outcomes p) st) (ih _ _)
      · rw [if_neg ht]
        exact ih { st with executionQueue := st.executionQueue ++ [p] } _

theorem processQueueAux_mev_mono (ns : NetworkState) (outcomes : Proof → ExecOutcome)
    (ps : List Proof) (st : AgentState) (tr : Trace)
    (hps : ∀ p ∈ ps, 0 ≤ p.mevSaved) :
    st.stats.totalMevSaved ≤ (processQueueAux ns outcomes ps st tr).1.stats.totalMevSaved := by
  induction ps generalizing st tr with
  | nil => exact le_refl _
  | cons p rest ih =>
      simp only [processQueueAux]
      by_cases ht : determineOptimalTiming p ns
      · rw [if_pos ht]
        refine le_trans
          (executeProof_mev_mono p ns (outcomes p) st (hps p (List.mem_cons_self p rest)))
          (ih _ _ ?_)
        exact fun q hq => hps q (List.mem_cons_of_mem p hq)
      · rw [if_neg ht]
        exact ih { st with executionQueue := st.executionQueue ++ [p] } _
          fun q hq => hps q (List.mem_cons_of_mem p hq)

theorem processQueue_statsLe (ns : NetworkState) (outcomes : Proof → ExecOutcome)
    (st : AgentState) (tr : Trace) :
    StatsLe st.stats (processQueue ns outcomes st tr).1.stats := by
  unfold processQueue
  by_cases he : st.executionQueue = []
  · simp [he, statsLe_refl]
  · simp only [he, if_false]
    exact processQueueAux_statsLe ns outcomes st.executionQueue
      { st with executionQueue := [] } tr

theorem processQueue_mev_mono (ns : NetworkState) (outcomes : Proof → ExecOutcome)
    (st : AgentState) (tr : Trace) (hps : ∀ p ∈ st.executionQueue, 0 ≤ p.mevSaved) :
    st.stats.totalMevSaved ≤ (processQueue ns outcomes st tr).1.stats.totalMevSaved := by
  unfold processQueue
  by_cases he : st.executionQueue = []
  · simp [he]
  · simp only [he, if_false]
    exact processQueueAux_mev_mono ns outcomes st.executionQueue
      { st with executionQueue := [] } tr hps

theorem processQueue_queue_sub (ns : NetworkState) (outcomes : Proof → ExecOutcome)
    (st : AgentState) (tr : Trace) (q : Proof)
    (hq : q ∈ (processQueue ns outcomes st tr).1.executionQueue) :
    q ∈ st.executionQueue := by
  unfold processQueue at hq
  by_cases he : st.executionQueue = []
  · rw [if_pos he] at hq
    exact hq
  · rw [if_neg he] at hq
    rw [processQueueAux_queueEq] at hq
    simp only [List.nil_append] at hq
    exact (List.mem_filter.mp hq).1

theorem cycle_statsLe (trusted : String) (ci : CycleInput) (st : AgentState) (tr : Trace) :
    StatsLe st.stats (cycle trusted ci st tr).1.stats := by
  unfold cycle
  exact statsLe_trans
    (runCandidates_statsLe trusted ci.now ci.ns ci.outcomes _ st tr)
    (processQueue_statsLe ci.ns ci.outcomes _ _)

theorem cycle_queue_sub (trusted : String) (ci : CycleInput) (st : AgentState)
    (tr : Trace) (q : Proof) (hq : q ∈ (cycle trusted ci st tr).1.executionQueue) :
    q ∈ st.executionQueue ∨ q ∈ ci.candidates := by
  unfold cycle at hq
  have h1 := processQueue_queue_sub ci.ns ci.outcomes _ _ q hq
  rcases runCandidates_queue_sub trusted ci.now ci.ns ci.outcomes _ st tr q h1 with h | h
  · exact Or.inl h
  · exact Or.inr (List.mem_filter.mp h).1

theorem cycle_mev_mono (trusted : String) (ci : CycleInput) (st : AgentState)
    (tr : Trace) (hq : ∀ p ∈ st.executionQueue, 0 ≤ p.mevSaved)
    (hc : ∀ p ∈ ci.candidates, 0 ≤ p.mevSaved) :
    st.stats.totalMevSaved ≤ (cycle trusted ci st tr).1.stats.totalMevSaved := by
  unfold cycle
  refine le_trans
    (runCandidates_mev_mono trusted ci.now ci.ns ci.outcomes _ st tr ?_)
    (processQueue_mev_mono ci.ns ci.outcomes _ _ ?_)
  · exact fun p hp => hc p (List.mem_filter.mp hp).1
  · intro p hp
    rcases runCandidates_queue_sub trusted ci.now ci.ns ci.outcomes _ st tr p hp with h | h
    · exact hq p h
    · exact hc p (List.mem_filter.mp h).1

theorem runCycles_statsLe (trusted : String) (inputs : List CycleInput)
    (st : AgentState) (tr : Trace) :
    StatsLe st.stats (runCycles trusted inputs st tr).1.stats := by
  induction inputs generalizing st tr with
  | nil => exact statsLe_refl _
  | cons ci rest ih =>
      simp only [runCycles]
      exact statsLe_trans (cycle_statsLe trusted ci st tr) (ih _ _)

theorem runCycles_mev_mono (trusted : String) (inputs : List CycleInput)
    (st : AgentState) (tr : Trace) (hq : ∀ p ∈ st.executionQueue, 0 ≤ p.mevSaved)
    (hc : ∀ ci ∈ inputs, ∀ p ∈ ci.candidates, 0 ≤ p.mevSaved) :
    st.stats.totalMevSaved ≤ (runCycles trusted inputs st tr).1.stats.totalMevSaved := by
  induction inputs generalizing st tr with
  | nil => exact le_refl _
  | cons ci rest ih =>
      simp only [runCycles]
      refine le_trans
        (cycle_mev_mono trusted ci st tr hq (hc ci (List.mem_cons_self ci rest))) (ih _ _ ?_ ?_)
      · intro p hp
        rcases cycle_queue_sub trusted ci st tr p hp with h | h
        · exact hq p h
        · exact hc ci (List.mem_cons_self ci rest) p h
      · exact fun ci' hci' => hc ci' (List.mem_cons_of_mem ci hci')

theorem validateProof_eq_isNone (p : Proof) (trusted : String) (now : Int) :
    validateProof p trusted now = (validateProofR p trusted now).isNone := by
  unfold validateProof validateProofR
  split_ifs <;> rfl

theorem validateProof_true_iff (p : Proof) (trusted : String) (now : Int) :
    validateProof p trusted now = true ↔
      (lowerString p.teeSigner = lowerString trusted ∧ now - p.timestamp ≤ 3600 ∧
        130 ≤ p.teeSignature.length ∧ 0 < p.amountIn ∧ 0 < p.amountOut) := by
  unfold validateProof
  split_ifs with h1 h2 h3 h4
  · simp only [false_iff]
    intro h
    exact h1 h.1
  · simp only [false_iff]
    intro h
    exact absurd h.2.1 (by omega)
  · simp only [false_iff]
    intro h
    exact absurd h.2.2.1 (by omega)
  · simp only [false_iff]
    intro h
    rcases h4 with h4 | h4
    · exact absurd h.2.2.2.1 (by omega)
    · exact absurd h.2.2.2.2 (by omega)
  · simp only [true_iff]
    push_neg at h4
    exact ⟨not_not.mp h1, not_lt.mp h2, not_lt.mp h3, h4.1, h4.2⟩

theorem validateProofR_eq_firstFailingRule (p : Proof) (trusted : String) (now : Int) :
    validateProofR p trusted now = firstFailingRule p trusted now := by
  unfold validateProofR firstFailingRule ruleOrder rulePasses
  by_cases c1 : lowerString p.teeSigner = lowerString trusted
  · by_cases c2 : now - p.timestamp ≤ 3600
    · by_cases c3 : 130 ≤ p.teeSignature.length
      · by_cases c4 : 0 < p.amountIn ∧ 0 < p.amountOut
        · rw [if_neg (not_not.mpr c1), if_neg (by omega), if_neg (by omega),
            if_neg (by omega)]
          simp [List.find?, c1, c2, c3, c4.1, c4.2]
        · rw [if_neg (not_not.mpr c1), if_neg (by omega), if_neg (by omega),
            if_pos (by omega)]
          simp [List.find?, c1, c2, c3, c4]
      · rw [if_neg (not_not.mpr c1), if_neg (by omega), if_pos (by omega)]
        simp [List.find?, c1, c2, c3]
    · rw [if_neg (not_not.mpr c1), if_pos (by omega)]
      simp [List.find?, c1, c2]
  · rw [if_pos c1]
    simp [List.find?, c1]

theorem assessMEVRisk_ne_high (p : Proof) : assessMEVRisk p ≠ MEVRisk.high := by
  unfold assessMEVRisk
  split_ifs <;> simp

theorem gasPriceGwei_le_iff (ns : NetworkState) :
    gasPriceGwei ns ≤ MAX_GAS_PRICE_GWEI ↔ ns.gasPriceWei ≤ MAX_GAS_PRICE_WEI := by
  unfold gasPriceGwei MAX_GAS_PRICE_GWEI MAX_GAS_PRICE_WEI
  rw [div_le_iff (by norm_num : (0:ℚ) < 1000000000)]
  exact_mod_cast Iff.rfl

theorem determineOptimalTiming_true_iff (p : Proof) (ns : NetworkState) :
    determineOptimalTiming p ns = true ↔ gasPriceGwei ns ≤ MAX_GAS_PRICE_GWEI := by
  rw [gasPriceGwei_le_iff]
  unfold determineOptimalTiming
  by_cases hg : ns.gasPriceWei > MAX_GAS_PRICE_WEI
  · rw [if_pos hg]
    simp only [Bool.false_eq_true, false_iff, not_le]
    exact hg
  · rw [if_neg hg]
    have hmev : (MEV_PROTECTION_ENABLED && decide (assessMEVRisk p = MEVRisk.high)) = false := by
      simp [assessMEVRisk_ne_high p]
    rw [hmev, if_neg (by simp)]
    simp only [true_iff]
    omega

theorem determineOptimalTiming_false_iff (p : Proof) (ns : NetworkState) :
    determineOptimalTiming p ns = false ↔ MAX_GAS_PRICE_GWEI < gasPriceGwei ns := by
  have ht := determineOptimalTiming_true_iff p ns
  constructor
  · intro h
    by_contra hle
    rw [not_lt] at hle
    rw [ht.mpr hle] at h
    simp at h
  · intro h
    cases hb : determineOptimalTiming p ns
    · rfl
    · exact absurd (ht.mp hb) (not_le.mpr h)

/-! Claim theorems. -/

/-- Claim C1, counterexample: executeProof performs no already-settled check.
After a first call that settled mockProof (success counter 1), a second call
with the same proof identifier performs a second on-target submission and
changes Stats again: the success counter becomes 2 and the candidates counter
becomes 2, contradicting the claimed no-op second call. -/
theorem claim_C1_counterexample :
    ((executeProof mockProof ns5 (ExecOutcome.success "0xt1") initialState).2.stats.successfulExecutions = 1)
    ∧ ((executeProof mockProof ns5 (ExecOutcome.success "0xt2")
          (executeProof mockProof ns5 (ExecOutcome.success "0xt1") initialState).2).2.stats.successfulExecutions = 2)
    ∧ ((executeProof mockProof ns5 (ExecOutcome.success "0xt2")
          (executeProof mockProof ns5 (ExecOutcome.success "0xt1") initialState).2).2.stats.proofsProcessed = 2) := by
  decide

/-- Claim C1, amended: executeProof never consults the ProofStore before
submitting; a repeated call for an already-settled identifier submits again
and increments the counters again.  The only deduplication is
fetchPendingProofs filtering freshly fetched candidates against
processedProofs; it does not cover the PendingQueue, so the loop itself can
double-submit: a proof deferred in one cycle and re-fetched in the next is
executed twice in that cycle, once on the candidate path and once on the
queue drain -- the run over [ciDefer, ciGood] ends with two engine
invocations on mockProof's identifier and two recorded successes. -/
theorem claim_C1_amended (p : Proof) (ns : NetworkState) (h : String)
    (st : AgentState) (hmem : p.intentHash ∈ st.processedProofs) :
    (executeProof p ns (ExecOutcome.success h) st).2.stats.successfulExecutions
        = st.stats.successfulExecutions + 1
    ∧ (executeProof p ns (ExecOutcome.success h) st).2.stats.proofsProcessed
        = st.stats.proofsProcessed + 1
    ∧ fetchPendingProofs [p] st.processedProofs = []
    ∧ (runCycles TRUSTED_TEE_SIGNER [ciDefer, ciGood] initialState emptyTrace).2.executed
        = [mockProof.intentHash, mockProof.intentHash]
    ∧ (runCycles TRUSTED_TEE_SIGNER [ciDefer, ciGood] initialState emptyTrace).1.stats.successfulExecutions
        = 2 := by
  refine ⟨rfl, rfl, ?_, by decide, by decide⟩
  simp [fetchPendingProofs, hmem]

/-- Witness for claim C1's amended theorem at a state where mockProof is
already settled. -/
theorem claim_C1_amended_witness :
    (executeProof mockProof ns5 (ExecOutcome.success "0xt3") settledState).2.stats.successfulExecutions
        = settledState.stats.successfulExecutions + 1
    ∧ (executeProof mockProof ns5 (ExecOutcome.success "0xt3") settledState).2.stats.proofsProcessed
        = settledState.stats.proofsProcessed + 1
    ∧ fetchPendingProofs [mockProof] settledState.processedProofs = []
    ∧ (runCycles TRUSTED_TEE_SIGNER [ciDefer, ciGood] initialState emptyTrace).2.executed
        = [mockProof.intentHash, mockProof.intentHash]
    ∧ (runCycles TRUSTED_TEE_SIGNER [ciDefer, ciGood] initialState emptyTrace).1.stats.successfulExecutions
        = 2 :=
  claim_C1_amended mockProof ns5 "0xt3" settledState (by decide)

/-- Claim C2: validateProof is a pure function of (proof, trustedIdentity,
now) -- it is a Lean function of exactly these arguments, so identical inputs
give identical outcomes -- and it accepts exactly when the identity matches
case-insensitively, the age now - timestamp is at most 3600 s, the encoded
signature length is at least 130, and both amounts are strictly positive;
moreover the rejection reason equals the first failing rule in the fixed
order identity, freshness, signature format, amounts (firstFailingRule), so
the rules are evaluated in that order with the first failure short-circuiting. -/
theorem claim_C2 (p : Proof) (trusted : String) (now : Int) :
    (validateProof p trusted now = true ↔
      (lowerString p.teeSigner = lowerString trusted ∧ now - p.timestamp ≤ 3600 ∧
        130 ≤ p.teeSignature.length ∧ 0 < p.amountIn ∧ 0 < p.amountOut))
    ∧ validateProofR p trusted now = firstFailingRule p trusted now
    ∧ validateProof p trusted now = (validateProofR p trusted now).isNone :=
  ⟨validateProof_true_iff p trusted now, validateProofR_eq_firstFailingRule p trusted now,
    validateProof_eq_isNone p trusted now⟩

/-- Claim C3, counterexample: a proof rejected by the validator in one cycle
is validated again in the next cycle.  badSignerProof is rejected in cycle
one, yet after a second cycle presenting the same candidate set the trace
shows two validator invocations on its identifier. -/
theorem claim_C3_counterexample :
    (validateProof badSignerProof TRUSTED_TEE_SIGNER mockNow = false)
    ∧ ((cycle TRUSTED_TEE_SIGNER ciBad
          (cycle TRUSTED_TEE_SIGNER ciBad initialState emptyTrace).1
          (cycle TRUSTED_TEE_SIGNER ciBad initialState emptyTrace).2).2.validated
        = [badSignerProof.intentHash, badSignerProof.intentHash]) := by
  decide

/-- Claim C3, amended: a validator rejection is not recorded anywhere -- the
rejected candidate is dropped with the whole agent state unchanged (only the
validation trace grows).  Consequently nothing prevents re-validation: when
the proof source presents the same identifier in a later cycle, the validator
runs on it again (the counterexample exhibits this recurrence). -/
theorem claim_C3_amended (trusted : String) (now : Int) (ns : NetworkState)
    (outcomes : Proof → ExecOutcome) (p : Proof) (st : AgentState) (tr : Trace)
    (hrej : validateProof p trusted now = false) :
    processCandidate trusted now ns outcomes st tr p
      = (st, { tr with validated := tr.validated ++ [p.intentHash] }) := by
  simp [processCandidate, hrej]

/-- Witness for claim C3's amended theorem at the rejected badSignerProof. -/
theorem claim_C3_amended_witness :
    processCandidate TRUSTED_TEE_SIGNER mockNow ns5 (fun _ => ExecOutcome.success "0x05")
        initialState emptyTrace badSignerProof
      = (initialState,
          { emptyTrace with validated := emptyTrace.validated ++ [badSignerProof.intentHash] }) :=
  claim_C3_amended TRUSTED_TEE_SIGNER mockNow ns5 (fun _ => ExecOutcome.success "0x05")
    badSignerProof initialState emptyTrace (by decide)

/-- Claim C4: when the submission/confirmation step of executeProof throws,
the catch block rolls the in-flight marking back so the identifier is absent
from the processed set, increments failedExecutions by exactly one, surfaces
the error in the returned failure result, and leaves the success counter, the
fee total and the benefit total unchanged. -/
theorem claim_C4 (p : Proof) (ns : NetworkState) (err : String) (st : AgentState) :
    (executeProof p ns (ExecOutcome.failure err) st).1 = ExecResult.failed err
    ∧ p.intentHash ∉ (executeProof p ns (ExecOutcome.failure err) st).2.processedProofs
    ∧ (executeProof p ns (ExecOutcome.failure err) st).2.stats.failedExecutions
        = st.stats.failedExecutions + 1
    ∧ (executeProof p ns (ExecOutcome.failure err) st).2.stats.successfulExecutions
        = st.stats.successfulExecutions
    ∧ (executeProof p ns (ExecOutcome.failure err) st).2.stats.totalGasSpent
        = st.stats.totalGasSpent
    ∧ (executeProof p ns (ExecOutcome.failure err) st).2.stats.totalMevSaved
        = st.stats.totalMevSaved := by
  refine ⟨rfl, ?_, rfl, rfl, rfl, rfl⟩
  simp [executeProof, SetDelete, List.mem_filter]

/-- Witness for claim C4 at a concrete failing execution of mockProof. -/
theorem claim_C4_witness :
    (executeProof mockProof ns5 (ExecOutcome.failure "submission reverted") initialState).1
        = ExecResult.failed "submission reverted"
    ∧ mockProof.intentHash ∉ (executeProof mockProof ns5
        (ExecOutcome.failure "submission reverted") initialState).2.processedProofs
    ∧ (executeProof mockProof ns5 (ExecOutcome.failure "submission reverted") initialState).2.stats.failedExecutions
        = initialState.stats.failedExecutions + 1
    ∧ (executeProof mockProof ns5 (ExecOutcome.failure "submission reverted") initialState).2.stats.successfulExecutions
        = initialState.stats.successfulExecutions
    ∧ (executeProof mockProof ns5 (ExecOutcome.failure "submission reverted") initialState).2.stats.totalGasSpent
        = initialState.stats.totalGasSpent
    ∧ (executeProof mockProof ns5 (ExecOutcome.failure "submission reverted") initialState).2.stats.totalMevSaved
        = initialState.stats.totalMevSaved :=
  claim_C4 mockProof ns5 "submission reverted" initialState

/-- Claim C5: determineOptimalTiming returns false exactly when the fee price
in gwei exceeds the ceiling of 50, for every proof; assessMEVRisk yields
MEDIUM exactly above the 10000 * 10^6 large-trade threshold and LOW exactly
at or below it, and never yields anything but MEDIUM or LOW (in particular
never HIGH); hence determineOptimalTiming returns true exactly when the fee
price does not exceed the ceiling. -/
theorem claim_C5 :
    (∀ (p : Proof) (ns : NetworkState),
        determineOptimalTiming p ns = false ↔ MAX_GAS_PRICE_GWEI < gasPriceGwei ns)
    ∧ (∀ p : Proof, assessMEVRisk p = MEVRisk.medium ↔ 10000 * 10 ^ 6 < p.amountIn)
    ∧ (∀ p : Proof, assessMEVRisk p = MEVRisk.low ↔ p.amountIn ≤ 10000 * 10 ^ 6)
    ∧ (∀ p : Proof, assessMEVRisk p = MEVRisk.medium ∨ assessMEVRisk p = MEVRisk.low)
    ∧ (∀ (p : Proof) (ns : NetworkState),
        determineOptimalTiming p ns = true ↔ gasPriceGwei ns ≤ MAX_GAS_PRICE_GWEI) := by
  refine ⟨fun p ns => determineOptimalTiming_false_iff p ns, ?_, ?_, ?_,
    fun p ns => determineOptimalTiming_true_iff p ns⟩
  · intro p
    unfold assessMEVRisk
    split_ifs with h
    · simp only [eq_self_iff_true, true_iff]
      omega
    · simp only [reduceCtorEq, false_iff, not_lt]
      omega
  · intro p
    unfold assessMEVRisk
    split_ifs with h
    · simp only [reduceCtorEq, false_iff, not_le]
      omega
    · simp only [eq_self_iff_true, true_iff]
      omega
  · intro p
    unfold assessMEVRisk
    split_ifs <;> simp

/-- Claim C6: in every cycle processQueue re-evaluates each proof currently in
the queue exactly once against the timing advisor with the current cycle's
network state (the timing trace grows by exactly one entry per queued proof,
in order); proofs that pass are executed and removed, proofs that fail are
re-appended for the next cycle in their original relative order, and the
executed identifiers are exactly those whose timing gates all pass, so no
queued proof is executed while a gate fails for it. -/
theorem claim_C6 (ns : NetworkState) (outcomes : Proof → ExecOutcome)
    (st : AgentState) (tr : Trace) :
    (processQueue ns outcomes st tr).1.executionQueue
        = st.executionQueue.filter (fun p => !determineOptimalTiming p ns)
    ∧ (processQueue ns outcomes st tr).2.timingChecked
        = tr.timingChecked ++ st.executionQueue.map (fun p => p.intentHash)
    ∧ (processQueue ns outcomes st tr).2.executed
        = tr.executed ++ (st.executionQueue.filter
            (fun p => determineOptimalTiming p ns)).map (fun p => p.intentHash) := by
  unfold processQueue
  by_cases he : st.executionQueue = []
  · rw [if_pos he]
    simp [he]
  · rw [if_neg he]
    refine ⟨?_, ?_, ?_⟩
    · rw [processQueueAux_queueEq]
      simp
    · rw [processQueueAux_timingEq]
    · rw [processQueueAux_executedEq]

/-- Claim C7: every candidate whose identifier is already in processedProofs
(settled or in-flight) is filtered out by fetchPendingProofs before
validation, and a cycle over a candidate set is equal -- same final state,
same invocation trace, hence same Stats and no validator or engine call on
the repeats' account -- to the cycle over the candidate set with those
repeats removed. -/
theorem claim_C7 (trusted : String) (ci : CycleInput) (st : AgentState) (tr : Trace) :
    (fetchPendingProofs ci.candidates st.processedProofs).all
        (fun p => !(decide (p.intentHash ∈ st.processedProofs))) = true
    ∧ cycle trusted ci st tr
        = cycle trusted
            { ci with candidates :=
                ci.candidates.filter (fun p => !(decide (p.intentHash ∈ st.processedProofs))) }
            st tr := by
  constructor
  · rw [List.all_eq_true]
    intro p hp
    unfold fetchPendingProofs at hp
    exact (List.mem_filter.mp hp).2
  · have h2 : fetchPendingProofs
        (ci.candidates.filter (fun p => !(decide (p.intentHash ∈ st.processedProofs))))
        st.processedProofs
          = fetchPendingProofs ci.candidates st.processedProofs := by
      unfold fetchPendingProofs
      rw [List.filter_filter]
      exact List.filter_congr fun a ha => by rw [Bool.and_self]
    unfold cycle
    rw [show ({ ci with candidates :=
        ci.candidates.filter (fun p => !(decide (p.intentHash ∈ st.processedProofs))) }
          : CycleInput).candidates
      = ci.candidates.filter (fun p => !(decide (p.intentHash ∈ st.processedProofs))) from rfl,
      h2]

/-- Claim C8, counterexample: the benefit total is not monotone.  negMevProof
is accepted by the validator and the timing advisor, its execution succeeds,
and executeProof adds its advisory mevSaved value of -1 unchecked, so after
one cycle the cumulative totalMevSaved has decreased below its initial value. -/
theorem claim_C8_counterexample :
    (cycle TRUSTED_TEE_SIGNER ciNeg initialState emptyTrace).1.stats.totalMevSaved
      < initialState.stats.totalMevSaved := by
  decide

/-- Claim C8, amended: the candidates-seen, success and failure counters and
the fee total are monotonically non-decreasing across any sequence of agent
cycles; the benefit total is non-decreasing provided every proof held in the
queue or supplied by the proof source carries a non-negative advisory benefit
value (executeProof adds proof.mevSaved unchecked, so a negative value
decreases the total, as the counterexample shows); and the fee and benefit
totals change only on a successful execution -- a failing execution leaves
both unchanged. -/
theorem claim_C8_amended (trusted : String) (inputs : List CycleInput)
    (st : AgentState) (tr : Trace) :
    StatsLe st.stats (runCycles trusted inputs st tr).1.stats
    ∧ ((∀ p ∈ st.executionQueue, 0 ≤ p.mevSaved) →
        (∀ ci ∈ inputs, ∀ p ∈ ci.candidates, 0 ≤ p.mevSaved) →
          st.stats.totalMevSaved ≤ (runCycles trusted inputs st tr).1.stats.totalMevSaved)
    ∧ (∀ (p : Proof) (ns : NetworkState) (err : String) (st2 : AgentState),
        (executeProof p ns (ExecOutcome.failure err) st2).2.stats.totalGasSpent
            = st2.stats.totalGasSpent
        ∧ (executeProof p ns (ExecOutcome.failure err) st2).2.stats.totalMevSaved
            = st2.stats.totalMevSaved) :=
  ⟨runCycles_statsLe trusted inputs st tr,
    fun hq hc => runCycles_mev_mono trusted inputs st tr hq hc,
    fun _ _ _ _ => ⟨rfl, rfl⟩⟩

/-- Witness for claim C8's amended theorem on a one-cycle run executing
mockProof (whose advisory benefit value is non-negative). -/
theorem claim_C8_amended_witness :
    initialState.stats.totalMevSaved
      ≤ (runCycles TRUSTED_TEE_SIGNER [ciGood] initialState emptyTrace).1.stats.totalMevSaved :=
  (claim_C8_amended TRUSTED_TEE_SIGNER [ciGood] initialState emptyTrace).2.1
    (by
      intro p hp
      simp [initialState] at hp)
    (by
      intro ci hci p hp
      rw [List.mem_singleton] at hci
      subst hci
      simp only [ciGood] at hp
      rw [List.mem_singleton] at hp
      subst hp
      decide)

/-- Claim C9, counterexample: stats.proofsProcessed does not count candidates
seen.  A cycle observing one candidate that the validator rejects, and a
cycle observing one valid candidate that the timing advisor defers, each
leave proofsProcessed at 0 although the trace shows the candidate was
observed and validated. -/
theorem claim_C9_counterexample :
    ((cycle TRUSTED_TEE_SIGNER ciBad initialState emptyTrace).2.validated.length = 1
      ∧ (cycle TRUSTED_TEE_SIGNER ciBad initialState emptyTrace).1.stats.proofsProcessed = 0)
    ∧ ((cycle TRUSTED_TEE_SIGNER ciDefer initialState emptyTrace).2.validated.length = 1
      ∧ (cycle TRUSTED_TEE_SIGNER ciDefer initialState emptyTrace).1.stats.proofsProcessed = 0) := by
  decide

/-- Claim C9, amended: stats.proofsProcessed counts execution attempts, not
candidates seen -- every executeProof invocation increments it by exactly one
whether the submission succeeds or fails, while a candidate rejected by the
validator leaves the whole agent state (hence every counter) unchanged and a
candidate deferred by the timing advisor leaves the stats unchanged. -/
theorem claim_C9_amended (p : Proof) (ns : NetworkState) (o : ExecOutcome)
    (st : AgentState) :
    (executeProof p ns o st).2.stats.proofsProcessed = st.stats.proofsProcessed + 1
    ∧ (∀ (trusted : String) (now : Int) (ns2 : NetworkState)
          (outcomes : Proof → ExecOutcome) (st2 : AgentState) (tr : Trace) (q : Proof),
        validateProof q trusted now = false →
          (processCandidate trusted now ns2 outcomes st2 tr q).1 = st2)
    ∧ (∀ (trusted : String) (now : Int) (ns2 : NetworkState)
          (outcomes : Proof → ExecOutcome) (st2 : AgentState) (tr : Trace) (q : Proof),
        validateProof q trusted now = true → determineOptimalTiming q ns2 = false →
          (processCandidate trusted now ns2 outcomes st2 tr q).1.stats = st2.stats) := by
  refine ⟨?_, ?_, ?_⟩
  · cases o <;> rfl
  · intro trusted now ns2 outcomes st2 tr q hrej
    simp [processCandidate, hrej]
  · intro trusted now ns2 outcomes st2 tr q hacc hdef
    simp [processCandidate, hacc, hdef]

/-- Witness for claim C9's amended theorem: a failing execution still counts,
a rejected candidate changes nothing, a deferred candidate changes no stats. -/
theorem claim_C9_amended_witness :
    (executeProof mockProof ns5 (ExecOutcome.failure "boom") initialState).2.stats.proofsProcessed
        = initialState.stats.proofsProcessed + 1
    ∧ (processCandidate TRUSTED_TEE_SIGNER mockNow ns5 (fun _ => ExecOutcome.success "0x06")
          initialState emptyTrace badSignerProof).1 = initialState
    ∧ (processCandidate TRUSTED_TEE_SIGNER mockNow ns75 (fun _ => ExecOutcome.success "0x07")
          initialState emptyTrace mockProof).1.stats = initialState.stats :=
  ⟨(claim_C9_amended mockProof ns5 (ExecOutcome.failure "boom") initialState).1,
    (claim_C9_amended mockProof ns5 (ExecOutcome.failure "boom") initialState).2.1
      TRUSTED_TEE_SIGNER mockNow ns5 (fun _ => ExecOutcome.success "0x06")
      initialState emptyTrace badSignerProof (by decide),
    (claim_C9_amended mockProof ns5 (ExecOutcome.failure "boom") initialState).2.2
      TRUSTED_TEE_SIGNER mockNow ns75 (fun _ => ExecOutcome.success "0x07")
      initialState emptyTrace mockProof (by decide) (by decide)⟩

/-- Claim C10: the freshness gate only bounds age from above.  For a proof
whose issuance timestamp is at or after now, the validator never returns the
expired reason, and such a future-dated proof is accepted whenever the other
three checks (identity, signature length, positive amounts) pass. -/
theorem claim_C10 (p : Proof) (trusted : String) (now : Int)
    (hfut : now ≤ p.timestamp) :
    validateProofR p trusted now ≠ some RejectReason.expired
    ∧ (lowerString p.teeSigner = lowerString trusted → 130 ≤ p.teeSignature.length →
        0 < p.amountIn → 0 < p.amountOut → validateProof p trusted now = true) := by
  constructor
  · unfold validateProofR
    split_ifs with h1 h2 h3 h4
    · simp
    · exact absurd h2 (by omega)
    · simp
    · simp
    · simp
  · intro hs hl ha hb
    rw [validateProof_true_iff]
    exact ⟨hs, by omega, hl, ha, hb⟩

/-- Witness for claim C10 at futureProof, dated 10^8 s after the clock. -/
theorem claim_C10_witness :
    validateProof futureProof TRUSTED_TEE_SIGNER mockNow = true :=
  (claim_C10 futureProof TRUSTED_TEE_SIGNER mockNow (by decide)).2
    (by decide) (by decide) (by decide) (by decide)

end Relayer
